import Mathlib

/-!
Verification of the command-line dispatcher (`cmdline.py`): command
discovery, command-name resolution, usage-error handling, exit codes and
the profiling wrapper, shallowly embedded as pure Lean functions.

Conventions of the embedding:
* Python strings are Lean `String`; character-level operations of the
  source (`startswith`, `split`) are written structurally over `String.data`
  so that they compute by kernel reduction.
* A Python `dict` is an association list with unique keys kept in insertion
  order; `d[k] = v` is `dinsert`, `d.update(e)` is `dupdate`, `d[k]` / `in`
  is `dlookup`.
* Each `print(x)` call contributes one element `x` to an output-line list;
  newlines embedded in the printed string are kept inside the element.
* A Python exception is an explicit result constructor: `UsageError`
  becomes `CallResult.usageError` / `RunRes.usageError`, any other
  exception becomes `fault`, and the generic `Exception` raised during
  entry-point discovery becomes `Except.error`.
* External collaborators (the module walker, `pkg_resources`, `argparse`,
  `inside_project`) are inputs of the model, gathered in `Env`, and the
  parser built by `cmd.add_options` together with `parse_known_args` is the
  function field `parse_known_args` of a command.
-/

namespace Scrapy

/-- `arg.startswith('-')` of the source, written over the character list so
that it evaluates by kernel reduction.  A string starts with `'-'` iff it is
non-empty and its first character is `'-'`. -/
def startswith_dash (s : String) : Bool :=
  match s.data with
  | [] => false
  | c :: _ => c == '-'

/-- Auxiliary scan for `lastSeg`: keeps the characters seen since the last
`'.'` (in reverse) and restarts at every `'.'`. -/
def lastSegAux : List Char → List Char → List Char
  | [], acc => acc.reverse
  | c :: cs, acc => if c = '.' then lastSegAux cs [] else lastSegAux cs (c :: acc)

/-- `s.split('.')[-1]` of the source (the last dot-separated segment). -/
def lastSeg (s : String) : String :=
  String.mk (lastSegAux s.data [])

/-- A scrapy `UsageError`: an optional message (`str(e)`) and the
`print_help` flag. -/
structure UsageErr where
  msg : String
  print_help : Bool

/-- The parsed options namespace, restricted to the field the dispatcher
itself reads: `opts.profile` (`None` or the stats path). -/
structure Opts where
  profile : Option String

/-- Result of calling a command hook that returns no value
(`process_options`): normal return, a raised `UsageError`, or any other
raised exception. -/
inductive CallResult where
  | ok
  | usageError (e : UsageErr)
  | fault (msg : String)

/-- Result of `cmd.run(args, opts)`: normal return carrying the value of
`cmd.exitcode` afterwards, a raised `UsageError`, or any other raised
exception. -/
inductive RunRes where
  | ok (exitcode : Int)
  | usageError (e : UsageErr)
  | fault (msg : String)

/-- A `ScrapyCommand` instance.  `id` is an identity tag distinguishing
instances (so override claims are about *which* instance survives).
`parse_known_args` models the argparse parser after `cmd.add_options`,
returning `(opts, leftover args)`. -/
structure Cmd where
  id : Nat
  requires_project : Bool
  default_settings : List (String × String)
  syntax_str : String
  short_desc : String
  helpText : String
  parse_known_args : List String → Opts × List String
  process_options : List String → Opts → CallResult
  run : List String → Opts → RunRes

/-- A command class yielded by `_iter_command_classes`: its `__module__`
name and the instance its instantiation produces.  `requires_project` is
read off the instance, as the class attribute it defaults from. -/
structure CmdClass where
  modName : String
  inst : Cmd

/-- What `entry_point.load()` returns: a class (whose instantiation gives a
command) or something that is not a class. -/
inductive LoadedObj where
  | cls (c : Cmd)
  | nonCls

/-- A `pkg_resources` entry point of the `scrapy.commands` group. -/
structure EntryPoint where
  name : String
  obj : LoadedObj

/-- The settings object, restricted to what the dispatcher reads and
writes: `COMMANDS_MODULE`, `BOT_NAME`, and the layered store written by
`setdict` (entries `(key, value, priority)`). -/
structure Settings where
  commands_module : String
  bot_name : String
  values : List (String × String × String) := []

/-- `settings.setdict(d, priority=p)`: record every pair of `d` at
priority `p`. -/
def Settings.setdict (s : Settings) (d : List (String × String)) (p : String) : Settings :=
  { s with values := s.values ++ d.map (fun kv => (kv.1, kv.2, p)) }

/-- The ambient collaborators of `execute`: `inside_project()`, the classes
the module walker yields for the built-in `scrapy.commands` namespace and
for the `COMMANDS_MODULE` namespace, and the entry points of the
`scrapy.commands` group. -/
structure Env where
  inproject : Bool
  builtinCmds : List CmdClass
  entryPoints : List EntryPoint
  cmdsModuleCmds : List CmdClass

/-- Python-dict assignment `d[k] = v`: replace the binding of `k` in place
if present, else append. -/
def dinsert {α : Type} : List (String × α) → String → α → List (String × α)
  | [], k, v => [(k, v)]
  | (k0, v0) :: rest, k, v =>
      if k0 = k then (k, v) :: rest else (k0, v0) :: dinsert rest k v

/-- Python-dict lookup `d[k]` / membership `k in d`. -/
def dlookup {α : Type} : List (String × α) → String → Option α
  | [], _ => none
  | (k0, v0) :: rest, k => if k0 = k then some v0 else dlookup rest k

/-- Python-dict `d.update(e)`: assign every binding of `e` into `d`, left
to right. -/
def dupdate {α : Type} (d e : List (String × α)) : List (String × α) :=
  e.foldl (fun acc p => dinsert acc p.1 p.2) d

/-- `_get_commands_from_module`: instantiate every yielded class whose
`requires_project` passes the project filter, keyed by the last segment of
its defining module name. -/
def _get_commands_from_module (mod : List CmdClass) (inproject : Bool) :
    List (String × Cmd) :=
  mod.foldl
    (fun d c =>
      if inproject || !c.inst.requires_project then
        dinsert d (lastSeg c.modName) c.inst
      else d)
    []

/-- Loop of `_get_commands_from_entry_points`: load each entry point in
order; a class is instantiated and assigned, anything else raises
`Exception(f"Invalid entry point {name}")`. -/
def epGo : List EntryPoint → List (String × Cmd) → Except String (List (String × Cmd))
  | [], acc => .ok acc
  | ep :: rest, acc =>
      match ep.obj with
      | .cls c => epGo rest (dinsert acc ep.name c)
      | .nonCls => .error ("Invalid entry point " ++ ep.name)

/-- `_get_commands_from_entry_points` (the `inproject` parameter is unused
in the source as well; entry-point commands are not project-filtered). -/
def _get_commands_from_entry_points (_inproject : Bool) (eps : List EntryPoint) :
    Except String (List (String × Cmd)) :=
  epGo eps []

/-- `_get_commands_dict`: built-in commands, updated by entry-point
commands, updated by the `COMMANDS_MODULE` commands when that setting is
truthy (a non-empty module path). -/
def _get_commands_dict (settings : Settings) (env : Env) (inproject : Bool) :
    Except String (List (String × Cmd)) :=
  match _get_commands_from_entry_points inproject env.entryPoints with
  | .error m => .error m
  | .ok epCmds =>
      let cmds := dupdate (_get_commands_from_module env.builtinCmds inproject) epCmds
      if settings.commands_module = "" then .ok cmds
      else .ok (dupdate cmds (_get_commands_from_module env.cmdsModuleCmds inproject))

/-- Loop of `_pop_command_name`: iterate over a copy of `argv[1:]` with a
counter `i` starting at 0; at the first token not starting with `'-'`,
delete `argv[i]` from the original vector and return the token.  Note the
counter indexes the *original* vector although iteration starts at its
second element. -/
def popGo (argv : List String) : Nat → List String → Option String × List String
  | _, [] => (none, argv)
  | i, arg :: rest =>
      if startswith_dash arg then popGo argv (i + 1) rest
      else (some arg, argv.eraseIdx i)

/-- `_pop_command_name(argv)`: returns the popped command name (or `None`)
together with the vector after the `del`. -/
def _pop_command_name (argv : List String) : Option String × List String :=
  popGo argv 0 (argv.drop 1)

/-- Python truthiness of the resolved command name (`if not cmdname:`):
`None` and the empty string are falsy. -/
def pyFalsyName : Option String → Bool
  | none => true
  | some s => s = ""

def scrapyVersion : String := "2.6.1"

/-- `_print_header`: the single header line, distinguishing in-project from
no-project. -/
def _print_header (settings : Settings) (inproject : Bool) : String :=
  if inproject then
    "Scrapy " ++ scrapyVersion ++ " - project: " ++ settings.bot_name ++ "\n"
  else
    "Scrapy " ++ scrapyVersion ++ " - no active project\n"

/-- `f"{name:<13}"`: left-justify to width 13. -/
def ljust (s : String) (w : Nat) : String :=
  s ++ String.mk (List.replicate (w - s.length) ' ')

/-- One line of the command listing: `f"  {cmdname:<13} {cmdclass.short_desc()}"`. -/
def cmdItemLine (name : String) (c : Cmd) : String :=
  "  " ++ ljust name 13 ++ " " ++ c.short_desc

/-- `sorted(cmds.items())`: sort the registry items by key (keys are unique,
so the value components never get compared, and any stable sort agrees with
Python's). -/
def sortedItems (cmds : List (String × Cmd)) : List (String × Cmd) :=
  List.insertionSort (fun a b => a.1 ≤ b.1) cmds

/-- The lines `_print_commands` emits for a given registry. -/
def commandListing (settings : Settings) (inproject : Bool)
    (cmds : List (String × Cmd)) : List String :=
  _print_header settings inproject ::
    "Usage:" ::
    "  scrapy <command> [options] [args]\n" ::
    "Available commands:" ::
    ((sortedItems cmds).map (fun p => cmdItemLine p.1 p.2) ++
      (if !inproject then
        ["", "  [ more ]      More commands available when run from project directory"]
       else []) ++
      ["", "Use \"scrapy <command> -h\" to see more info about a command"])

/-- `_print_commands`: recomputes the registry (as the source does) and
renders the listing; a discovery failure propagates. -/
def _print_commands (settings : Settings) (env : Env) (inproject : Bool) :
    Except String (List String) :=
  match _get_commands_dict settings env inproject with
  | .error m => .error m
  | .ok cmds => .ok (commandListing settings inproject cmds)

/-- `_print_unknown_command`: header, the `Unknown command` line, and the
hint line. -/
def _print_unknown_command (settings : Settings) (cmdname : String)
    (inproject : Bool) : List String :=
  [_print_header settings inproject,
   "Unknown command: " ++ cmdname ++ "\n",
   "Use \"scrapy\" to see available commands"]

/-- What the model keeps of the argparse parser built in `execute`: its
usage template and the text `print_help` would emit. -/
structure ParserInfo where
  usage_str : String
  helpText : String

/-- The parser constructed in `execute` for a resolved command
(`usage=f"scrapy {cmdname} {cmd.syntax()}"`). -/
def mkParserInfo (cmdname : String) (cmd : Cmd) : ParserInfo :=
  { usage_str := "scrapy " ++ cmdname ++ " " ++ cmd.syntax_str,
    helpText := cmd.helpText }

/-- The error-channel lines of `parser.error(msg)` (argparse prints the
usage line and the error line, then exits with status 2). -/
def parserErrorOut (p : ParserInfo) (msg : String) : List String :=
  ["usage: " ++ p.usage_str, "error: " ++ msg]

/-- Observable outcome of one invocation: a process exit with its code and
the lines written to stdout and stderr, an uncaught discovery
configuration error, or an uncaught non-usage exception. -/
inductive Outcome where
  | exited (code : Int) (out : List String) (err : List String)
  | configError (msg : String)
  | fault (msg : String)

/-- Prepend earlier stderr lines to an exit outcome. -/
def Outcome.withErr (pre : List String) : Outcome → Outcome
  | .exited c o e => .exited c o (pre ++ e)
  | o => o

/-- `_run_print_help(parser, func, ...)` applied to the result of `func`:
`None` means control continues; a `UsageError` with a message terminates
through `parser.error` (exit 2), one without a message prints help if
requested and exits 2; any other exception propagates. -/
def _run_print_help (p : ParserInfo) (r : CallResult) : Option Outcome :=
  match r with
  | .ok => none
  | .usageError e =>
      if e.msg = "" then
        if e.print_help then some (.exited 2 [p.helpText] [])
        else some (.exited 2 [] [])
      else some (.exited 2 [] (parserErrorOut p e.msg))
  | .fault m => some (.fault m)

/-- Effect of `_run_command`: the call result seen by the caller, the
command's `exitcode` afterwards (0 unless `run` returned normally and set
it), the stderr lines written, and the stats file dumped (if any). -/
structure RunEff where
  result : CallResult
  exitcode : Int
  stderr : List String
  dumped : Option String

/-- Python truthiness of `opts.profile` (`None` and `""` are falsy). -/
def profileTruthy (opts : Opts) : Bool :=
  match opts.profile with
  | none => false
  | some s => !(s = "")

/-- The diagnostic line `_run_command_profiled` writes to stderr. -/
def profileDiagLine (opts : Opts) : String :=
  "scrapy: writing cProfile stats to " ++ opts.profile.getD "" ++ "\n"

/-- Running `cmd.run(args, opts)` directly, with no wrapper: the branch of
`_run_command` taken when profiling is off (nothing on stderr, no stats
dump). -/
def runDirectly (cmd : Cmd) (args : List String) (opts : Opts) : RunEff :=
  match cmd.run args opts with
  | .ok ec => { result := .ok, exitcode := ec, stderr := [], dumped := none }
  | .usageError e => { result := .usageError e, exitcode := 0, stderr := [], dumped := none }
  | .fault m => { result := .fault m, exitcode := 0, stderr := [], dumped := none }

/-- `_run_command_profiled`: write the diagnostic line, run `cmd.run` under
the profiler (exceptions propagate unchanged), and dump the stats only
after a normal return. -/
def _run_command_profiled (cmd : Cmd) (args : List String) (opts : Opts) : RunEff :=
  let errLines := if profileTruthy opts then [profileDiagLine opts] else []
  match cmd.run args opts with
  | .ok ec =>
      { result := .ok, exitcode := ec, stderr := errLines,
        dumped := if profileTruthy opts then opts.profile else none }
  | .usageError e =>
      { result := .usageError e, exitcode := 0, stderr := errLines, dumped := none }
  | .fault m =>
      { result := .fault m, exitcode := 0, stderr := errLines, dumped := none }

/-- `_run_command`: profile when `opts.profile` is truthy, else run
directly. -/
def _run_command (cmd : Cmd) (args : List String) (opts : Opts) : RunEff :=
  if profileTruthy opts then _run_command_profiled cmd args opts
  else runDirectly cmd args opts

/-- Lines 141–157 of `execute`, from a resolved command on: build the
parser, merge the command's default settings at `command` priority, parse
the remaining vector, validate options under `_run_print_help`, run under
`_run_print_help`, and exit with `cmd.exitcode`.  (`cmd.crawler_process`
binding is an external collaborator with no observable effect here.) -/
def execCommand (settings : Settings) (cmdname : String) (cmd : Cmd)
    (rest : List String) : Outcome :=
  let p := mkParserInfo cmdname cmd
  let _settings1 := settings.setdict cmd.default_settings "command"
  let (opts, args) := cmd.parse_known_args rest
  match _run_print_help p (cmd.process_options args opts) with
  | some o => o
  | none =>
      let eff := _run_command cmd args opts
      match _run_print_help p eff.result with
      | some o => o.withErr eff.stderr
      | none => .exited eff.exitcode [] eff.stderr

/-- `execute(argv, settings)`: discovery, resolution, dispatch.  A falsy
command name prints the listing and exits 0; an unregistered name prints
the unknown-command text and exits 2; otherwise the command pipeline runs. -/
def execute (argv : List String) (settings : Settings) (env : Env) : Outcome :=
  let inproject := env.inproject
  match _get_commands_dict settings env inproject with
  | .error m => .configError m
  | .ok cmds =>
      let (cmdnameOpt, argv2) := _pop_command_name argv
      if pyFalsyName cmdnameOpt then
        match _print_commands settings env inproject with
        | .error m => .configError m
        | .ok lines => .exited 0 lines []
      else
        let cmdname := cmdnameOpt.getD ""
        match dlookup cmds cmdname with
        | none => .exited 2 (_print_unknown_command settings cmdname inproject) []
        | some cmd => execCommand settings cmdname cmd (argv2.drop 1)

/-- First-some choice on options, mirroring which source a dict lookup
falls through to after an update. -/
def optOr {α : Type} : Option α → Option α → Option α
  | some a, _ => some a
  | none, b => b

/-- The project-override source of the final registry: empty when
`COMMANDS_MODULE` is not set, else the scan of that module. -/
def projOverrideCmds (settings : Settings) (env : Env) (inproject : Bool) :
    List (String × Cmd) :=
  if settings.commands_module = "" then []
  else _get_commands_from_module env.cmdsModuleCmds inproject

/-- `True` exactly on the malformed (non-class) entry points. -/
def epIsNonCls (ep : EntryPoint) : Bool :=
  match ep.obj with
  | .nonCls => true
  | .cls _ => false

/-! ### Dictionary lemmas -/

theorem dlookup_dinsert {α : Type} (d : List (String × α)) (k k' : String) (v : α) :
    dlookup (dinsert d k v) k' = if k' = k then some v else dlookup d k' := by
  induction d with
  | nil =>
      by_cases h : k' = k
      · subst h; simp [dinsert, dlookup]
      · have h' : ¬ (k = k') := fun hh => h hh.symm
        simp [dinsert, dlookup, h, h']
  | cons hd tl ih =>
      obtain ⟨k0, v0⟩ := hd
      by_cases h0 : k0 = k
      · subst h0
        by_cases h1 : k0 = k'
        · simp [dinsert, dlookup, h1]
        · have h1' : ¬ (k' = k0) := fun hh => h1 hh.symm
          simp [dinsert, dlookup, h1, h1']
      · by_cases h1 : k0 = k'
        · subst h1
          have h0' : ¬ (k0 = k) := h0
          simp [dinsert, dlookup, h0]
        · have h1' : ¬ (k' = k0) := fun hh => h1 hh.symm
          simp [dinsert, dlookup, h0, h1, h1', ih]

theorem dlookup_eq_none_of_not_mem {α : Type} (d : List (String × α)) (k : String)
    (h : k ∉ d.map Prod.fst) : dlookup d k = none := by
  induction d with
  | nil => rfl
  | cons hd tl ih =>
      obtain ⟨k0, v0⟩ := hd
      simp only [List.map_cons, List.mem_cons] at h
      push_neg at h
      obtain ⟨h1, h2⟩ := h
      have h1' : ¬ (k0 = k) := fun hh => h1 hh.symm
      simp [dlookup, h1', ih h2]

theorem keys_dinsert {α : Type} (d : List (String × α)) (k : String) (v : α) :
    (dinsert d k v).map Prod.fst =
      if k ∈ d.map Prod.fst then d.map Prod.fst else d.map Prod.fst ++ [k] := by
  induction d with
  | nil => simp [dinsert]
  | cons hd tl ih =>
      obtain ⟨k0, v0⟩ := hd
      by_cases h0 : k0 = k
      · subst h0; simp [dinsert]
      · have h0' : ¬ (k = k0) := fun hh => h0 hh.symm
        by_cases hm : k ∈ tl.map Prod.fst
        · simp [dinsert, h0, h0', ih, hm]
        · simp [dinsert, h0, h0', ih, hm]

theorem nodup_keys_dinsert {α : Type} (d : List (String × α)) (k : String) (v : α)
    (h : (d.map Prod.fst).Nodup) : ((dinsert d k v).map Prod.fst).Nodup := by
  rw [keys_dinsert]
  by_cases hm : k ∈ d.map Prod.fst
  · rw [if_pos hm]; exact h
  · rw [if_neg hm]
    refine List.Nodup.append h (List.nodup_singleton k) ?_
    intro a ha hak
    rw [List.mem_singleton] at hak
    subst hak
    exact hm ha

theorem dlookup_dupdate {α : Type} (d e : List (String × α)) (k : String)
    (he : (e.map Prod.fst).Nodup) :
    dlookup (dupdate d e) k = optOr (dlookup e k) (dlookup d k) := by
  induction e generalizing d with
  | nil => simp [dupdate, dlookup, optOr]
  | cons hd tl ih =>
      obtain ⟨k0, v0⟩ := hd
      simp only [List.map_cons, List.nodup_cons] at he
      have step : dupdate d ((k0, v0) :: tl) = dupdate (dinsert d k0 v0) tl := rfl
      rw [step, ih _ he.2, dlookup_dinsert]
      by_cases h0 : k = k0
      · subst h0
        rw [dlookup_eq_none_of_not_mem tl k he.1]
        simp [dlookup, optOr]
      · have h0' : ¬ (k0 = k) := fun hh => h0 hh.symm
        rw [if_neg h0]
        simp only [dlookup]
        rw [if_neg h0']

theorem dlookup_dinsert_inv {α : Type} (d : List (String × α)) (k0 k : String)
    (v0 v : α) (h : dlookup (dinsert d k0 v0) k = some v) :
    (k = k0 ∧ v = v0) ∨ dlookup d k = some v := by
  rw [dlookup_dinsert] at h
  by_cases h0 : k = k0
  · rw [if_pos h0] at h
    exact Or.inl ⟨h0, (Option.some.inj h).symm⟩
  · rw [if_neg h0] at h
    exact Or.inr h

/-! ### Resolution-loop lemmas -/

theorem popGo_all_flags (argv : List String) :
    ∀ (l : List String) (i : Nat), (∀ a ∈ l, startswith_dash a = true) →
      popGo argv i l = (none, argv) := by
  intro l
  induction l with
  | nil => intro i _; rfl
  | cons a rest ih =>
      intro i h
      have ha : startswith_dash a = true := h a (List.mem_cons_self a rest)
      simp [popGo, ha]
      exact ih (i + 1) fun b hb => h b (List.mem_cons_of_mem a hb)

theorem popGo_found :
    ∀ (l : List String) (m : Nat) (argv : List String) (i : Nat) (tok : String),
      l[m]? = some tok → startswith_dash tok = false →
      (∀ j, j < m → ∃ s, l[j]? = some s ∧ startswith_dash s = true) →
      popGo argv i l = (some tok, argv.eraseIdx (i + m)) := by
  intro l
  induction l with
  | nil => intro m argv i tok hget; simp at hget
  | cons a rest ih =>
      intro m argv i tok hget htok hflags
      cases m with
      | zero =>
          simp at hget
          subst hget
          simp [popGo, htok]
      | succ m' =>
          obtain ⟨s, hs, hsd⟩ := hflags 0 (Nat.succ_pos m')
          simp at hs
          subst hs
          have h1 : rest[m']? = some tok := by simpa using hget
          have h2 : ∀ j, j < m' → ∃ s, rest[j]? = some s ∧ startswith_dash s = true := by
            intro j hj
            have := hflags (j + 1) (Nat.succ_lt_succ hj)
            simpa using this
          have hrec := ih m' argv (i + 1) tok h1 htok h2
          have harith : i + 1 + m' = i + (m' + 1) := by omega
          rw [harith] at hrec
          simp only [popGo]
          rw [if_pos hsd]
          exact hrec

/-- The vector-level consequence of `popGo_found`: when the first token of
`argv` (after the program name) not starting with `'-'` sits at index `k`,
resolution returns that token and deletes the element at index `k - 1`. -/
theorem pop_spec (argv : List String) (k : Nat) (tok : String)
    (hk : 1 ≤ k) (hget : argv[k]? = some tok)
    (htok : startswith_dash tok = false)
    (hflags : ∀ j, 1 ≤ j → j < k → ∃ s, argv[j]? = some s ∧ startswith_dash s = true) :
    _pop_command_name argv = (some tok, argv.eraseIdx (k - 1)) := by
  unfold _pop_command_name
  have h1 : (argv.drop 1)[k - 1]? = some tok := by
    rw [List.getElem?_drop]
    have : 1 + (k - 1) = k := by omega
    rw [this]; exact hget
  have h2 : ∀ j, j < k - 1 → ∃ s, (argv.drop 1)[j]? = some s ∧ startswith_dash s = true := by
    intro j hj
    obtain ⟨s, hs, hsd⟩ := hflags (1 + j) (by omega) (by omega)
    exact ⟨s, by rw [List.getElem?_drop]; exact hs, hsd⟩
  have := popGo_found (argv.drop 1) (k - 1) argv 0 tok h1 htok h2
  simpa using this

/-! ### Discovery lemmas -/

theorem nodup_keys_module (mod : List CmdClass) (inproject : Bool) :
    ((_get_commands_from_module mod inproject).map Prod.fst).Nodup := by
  unfold _get_commands_from_module
  suffices h : ∀ (l : List CmdClass) (d : List (String × Cmd)),
      (d.map Prod.fst).Nodup →
      ((l.foldl
        (fun d c =>
          if inproject || !c.inst.requires_project then
            dinsert d (lastSeg c.modName) c.inst
          else d) d).map Prod.fst).Nodup by
    exact h mod [] (by simp)
  intro l
  induction l with
  | nil => intro d hd; simpa using hd
  | cons c rest ih =>
      intro d hd
      simp only [List.foldl_cons]
      by_cases hc : (inproject || !c.inst.requires_project) = true
      · rw [if_pos hc]; exact ih _ (nodup_keys_dinsert d _ _ hd)
      · rw [if_neg hc]; exact ih _ hd

theorem module_lookup_cond (mod : List CmdClass) (inproject : Bool) (k : String)
    (c : Cmd) (h : dlookup (_get_commands_from_module mod inproject) k = some c) :
    (inproject || !c.requires_project) = true := by
  unfold _get_commands_from_module at h
  suffices hgen : ∀ (l : List CmdClass) (d : List (String × Cmd)),
      (∀ k' c', dlookup d k' = some c' → (inproject || !c'.requires_project) = true) →
      ∀ k' c', dlookup (l.foldl
        (fun d c =>
          if inproject || !c.inst.requires_project then
            dinsert d (lastSeg c.modName) c.inst
          else d) d) k' = some c' →
        (inproject || !c'.requires_project) = true by
    exact hgen mod [] (by intro k' c' h'; simp [dlookup] at h') k c h
  intro l
  induction l with
  | nil => intro d hd; simpa using hd
  | cons cl rest ih =>
      intro d hd
      simp only [List.foldl_cons]
      by_cases hc : (inproject || !cl.inst.requires_project) = true
      · rw [if_pos hc]
        refine ih _ ?_
        intro k' c' h'
        rcases dlookup_dinsert_inv d _ k' _ c' h' with ⟨_, hv⟩ | hv
        · subst hv; exact hc
        · exact hd k' c' hv
      · rw [if_neg hc]; exact ih _ hd

theorem epGo_ok_nodup :
    ∀ (eps : List EntryPoint) (acc out : List (String × Cmd)),
      epGo eps acc = .ok out → (acc.map Prod.fst).Nodup → (out.map Prod.fst).Nodup := by
  intro eps
  induction eps with
  | nil => intro acc out h hn; cases h; exact hn
  | cons ep rest ih =>
      intro acc out h hn
      cases hobj : ep.obj with
      | cls c =>
          rw [epGo, hobj] at h
          exact ih _ _ h (nodup_keys_dinsert acc ep.name c hn)
      | nonCls => rw [epGo, hobj] at h; cases h

theorem epGo_error_of_find :
    ∀ (eps : List EntryPoint) (acc : List (String × Cmd)) (bad : EntryPoint),
      eps.find? epIsNonCls = some bad →
      epGo eps acc = .error ("Invalid entry point " ++ bad.name) := by
  intro eps
  induction eps with
  | nil => intro acc bad h; simp at h
  | cons ep rest ih =>
      intro acc bad h
      cases hobj : ep.obj with
      | cls c =>
          have hnc : epIsNonCls ep = false := by simp [epIsNonCls, hobj]
          rw [List.find?_cons_of_neg _ (by simp [hnc])] at h
          rw [epGo, hobj]
          exact ih _ bad h
      | nonCls =>
          have hnc : epIsNonCls ep = true := by simp [epIsNonCls, hobj]
          rw [List.find?_cons_of_pos _ hnc] at h
          cases h
          rw [epGo, hobj]

/-! ### Error/help-surface lemmas -/

theorem run_print_help_none (p : ParserInfo) (r : CallResult)
    (h : _run_print_help p r = none) : r = .ok := by
  cases r with
  | ok => rfl
  | usageError e =>
      simp only [_run_print_help] at h
      split_ifs at h
  | fault m => simp [_run_print_help] at h

theorem run_print_help_fault (p : ParserInfo) (r : CallResult) (m : String)
    (h : _run_print_help p r = some (.fault m)) : r = .fault m := by
  cases r with
  | ok => simp [_run_print_help] at h
  | usageError e =>
      simp only [_run_print_help] at h
      split_ifs at h <;> cases h
  | fault m2 =>
      simp only [_run_print_help, Option.some.injEq] at h
      rw [Outcome.fault.inj h]

theorem withErr_fault (pre : List String) (o : Outcome) (m : String)
    (h : Outcome.withErr pre o = .fault m) : o = .fault m := by
  cases o <;> simp [Outcome.withErr] at h ⊢
  exact h

theorem run_command_result_fault (cmd : Cmd) (args : List String) (opts : Opts)
    (m : String) (h : (_run_command cmd args opts).result = .fault m) :
    cmd.run args opts = .fault m := by
  unfold _run_command _run_command_profiled runDirectly at h
  by_cases hp : profileTruthy opts
  · rw [if_pos hp] at h
    cases hrun : cmd.run args opts <;> rw [hrun] at h <;> simp at h
    rw [h]
  · rw [if_neg hp] at h
    cases hrun : cmd.run args opts <;> rw [hrun] at h <;> simp at h
    rw [h]

/-- The outcome of the pipeline tail when option validation raises a
`UsageError` with a non-empty message: `parser.error` output and exit
status 2, independent of everything after the validation hook. -/
theorem execCommand_usage_error (settings : Settings) (cmdname : String) (cmd : Cmd)
    (rest : List String) (opts : Opts) (args : List String) (e : UsageErr)
    (hparse : cmd.parse_known_args rest = (opts, args))
    (hpo : cmd.process_options args opts = .usageError e)
    (hmsg : e.msg ≠ "") :
    execCommand settings cmdname cmd rest =
      .exited 2 [] (parserErrorOut (mkParserInfo cmdname cmd) e.msg) := by
  simp only [execCommand, hparse, hpo, _run_print_help]
  rw [if_neg hmsg]

/-! ### Demonstration values used by witnesses -/

/-- A minimal command instance; `n` is its identity tag, `rp` its
`requires_project` flag. -/
def mkDemoCmd (n : Nat) (rp : Bool) : Cmd :=
  { id := n, requires_project := rp, default_settings := [],
    syntax_str := "", short_desc := "", helpText := "",
    parse_known_args := fun a => ({ profile := none }, a),
    process_options := fun _ _ => .ok,
    run := fun _ _ => .ok 0 }

def demoSettingsPlain : Settings := { commands_module := "", bot_name := "demo" }

def demoSettingsMerge : Settings :=
  { commands_module := "proj.commands", bot_name := "demo" }

def demoEnvMerge : Env :=
  { inproject := true,
    builtinCmds := [{ modName := "scrapy.commands.crawl", inst := mkDemoCmd 1 false }],
    entryPoints := [{ name := "crawl", obj := .cls (mkDemoCmd 2 false) }],
    cmdsModuleCmds := [{ modName := "proj.commands.crawl", inst := mkDemoCmd 3 false }] }

def demoEnvEP : Env :=
  { inproject := false, builtinCmds := [],
    entryPoints := [{ name := "foo", obj := .cls (mkDemoCmd 7 true) }],
    cmdsModuleCmds := [] }

def demoEnvBuiltin : Env :=
  { inproject := false,
    builtinCmds := [{ modName := "scrapy.commands.version", inst := mkDemoCmd 4 false }],
    entryPoints := [], cmdsModuleCmds := [] }

def demoEnvBadEP : Env :=
  { inproject := false, builtinCmds := [],
    entryPoints := [{ name := "badep", obj := .nonCls }], cmdsModuleCmds := [] }

/-! ### Claim theorems -/

/-- C1 counterexample: on argv `["prog", "-x", "cmdA", "extra"]` resolution
does return `"cmdA"`, but the vector it leaves behind is
`["prog", "cmdA", "extra"]` — the flag `"-x"` preceding the token was
deleted, not the token itself — so the vector is not the
`["prog", "-x", "extra"]` the claim states. -/
theorem pop_example_deviates_from_claim :
    _pop_command_name ["prog", "-x", "cmdA", "extra"] =
      (some ("cmdA"), ["prog", "cmdA", "extra"]) ∧
    (["prog", "cmdA", "extra"] : List String) ≠ ["prog", "-x", "extra"] :=
  ⟨by decide, by decide⟩

/-- C1 (amended): for every argument vector whose first token not beginning
with `'-'` (after the program name, element 0) sits at index `k`, command
resolution returns that token and removes from the vector the element at
index `k - 1` — the element immediately preceding the token — leaving all
other elements untouched. -/
theorem pop_command_name_removes_preceding_index (argv : List String) (k : Nat)
    (tok : String) (hk : 1 ≤ k) (hget : argv[k]? = some tok)
    (htok : startswith_dash tok = false)
    (hflags : ∀ j, 1 ≤ j → j < k → ∃ s, argv[j]? = some s ∧ startswith_dash s = true) :
    _pop_command_name argv = (some tok, argv.eraseIdx (k - 1)) :=
  pop_spec argv k tok hk hget htok hflags

/-- Witness for C1 (amended) at argv `["prog", "-x", "cmdA", "extra"]`,
`k = 2`. -/
theorem pop_command_name_removes_preceding_index_witness :
    (1 ≤ 2) ∧
    ((["prog", "-x", "cmdA", "extra"] : List String)[2]? = some ("cmdA")) ∧
    startswith_dash ("cmdA") = false ∧
    _pop_command_name ["prog", "-x", "cmdA", "extra"] =
      (some ("cmdA"), (["prog", "-x", "cmdA", "extra"] : List String).eraseIdx 1) := by
  have hflags : ∀ j, 1 ≤ j → j < 2 →
      ∃ s, (["prog", "-x", "cmdA", "extra"] : List String)[j]? = some s ∧
        startswith_dash s = true := by
    intro j h1 h2
    have hj : j = 1 := by omega
    subst hj
    exact ⟨"-x", by decide, by decide⟩
  exact ⟨by decide, by decide, by decide,
    pop_command_name_removes_preceding_index ["prog", "-x", "cmdA", "extra"] 2 "cmdA"
      (by decide) (by decide) (by decide) hflags⟩

/-- C10: when every element after the program name begins with `'-'`
(including the vector holding only the program name), resolution returns no
command name and the vector is returned entirely unchanged. -/
theorem all_flags_returns_none_argv_unchanged (argv : List String)
    (h : ∀ a ∈ argv.drop 1, startswith_dash a = true) :
    _pop_command_name argv = (none, argv) :=
  popGo_all_flags argv (argv.drop 1) 0 h

/-- Witness for C10 at argv `["prog", "-a", "-b"]`. -/
theorem all_flags_returns_none_argv_unchanged_witness :
    (∀ a ∈ (["prog", "-a", "-b"] : List String).drop 1, startswith_dash a = true) ∧
    _pop_command_name ["prog", "-a", "-b"] = (none, ["prog", "-a", "-b"]) := by
  have h : ∀ a ∈ (["prog", "-a", "-b"] : List String).drop 1,
      startswith_dash a = true := by decide
  exact ⟨h, all_flags_returns_none_argv_unchanged ["prog", "-a", "-b"] h⟩

/-- C3: when entry-point discovery succeeds, the final registry resolves
every name by the merge order built-in → plugin-registry entry points →
project-override `COMMANDS_MODULE`: a lookup takes the project-override
binding first, else the entry-point binding, else the built-in binding —
so a name registered by several sources is bound to the later-merged
source's instance. -/
theorem registry_merge_later_source_wins (settings : Settings) (env : Env)
    (inproject : Bool) (epCmds : List (String × Cmd)) (k : String)
    (hep : _get_commands_from_entry_points inproject env.entryPoints = .ok epCmds) :
    ∃ cmds, _get_commands_dict settings env inproject = .ok cmds ∧
      dlookup cmds k =
        optOr (dlookup (projOverrideCmds settings env inproject) k)
          (optOr (dlookup epCmds k)
            (dlookup (_get_commands_from_module env.builtinCmds inproject) k)) := by
  have hnodup_ep : (epCmds.map Prod.fst).Nodup :=
    epGo_ok_nodup env.entryPoints [] epCmds hep (by simp)
  simp only [_get_commands_dict, hep]
  by_cases hcm : settings.commands_module = ""
  · rw [if_pos hcm]
    refine ⟨_, rfl, ?_⟩
    rw [dlookup_dupdate _ _ _ hnodup_ep]
    unfold projOverrideCmds
    rw [if_pos hcm]
    simp [dlookup, optOr]
  · rw [if_neg hcm]
    refine ⟨_, rfl, ?_⟩
    rw [dlookup_dupdate _ _ _ (nodup_keys_module env.cmdsModuleCmds inproject),
      dlookup_dupdate _ _ _ hnodup_ep]
    unfold projOverrideCmds
    rw [if_neg hcm]

/-- Witness for C3: the name `crawl` is provided by all three sources
(ids 1, 2, 3); the merged registry is computed and the lookup follows the
later-merged sources first. -/
theorem registry_merge_later_source_wins_witness :
    _get_commands_from_entry_points true demoEnvMerge.entryPoints =
      .ok [("crawl", mkDemoCmd 2 false)] ∧
    (∃ cmds, _get_commands_dict demoSettingsMerge demoEnvMerge true = .ok cmds ∧
      dlookup cmds "crawl" =
        optOr (dlookup (projOverrideCmds demoSettingsMerge demoEnvMerge true) "crawl")
          (optOr (dlookup [("crawl", mkDemoCmd 2 false)] "crawl")
            (dlookup (_get_commands_from_module demoEnvMerge.builtinCmds true) "crawl"))) :=
  ⟨rfl, registry_merge_later_source_wins demoSettingsMerge demoEnvMerge true
    [("crawl", mkDemoCmd 2 false)] "crawl" rfl⟩

/-- C4 counterexample: a plugin-registry entry point may put a command with
`requires_project = true` into the registry even though the project flag is
false — the entry-point source bypasses the project filter, so the claim
"never appears ... regardless of which discovery source provided it" fails. -/
theorem entry_point_requires_project_in_registry :
    _get_commands_dict demoSettingsPlain demoEnvEP false =
      .ok [("foo", mkDemoCmd 7 true)] ∧
    dlookup [("foo", mkDemoCmd 7 true)] "foo" = some (mkDemoCmd 7 true) ∧
    (mkDemoCmd 7 true).requires_project = true :=
  ⟨rfl, rfl, rfl⟩

/-- C4 (amended): commands discovered from modules (the built-in namespace
and the `COMMANDS_MODULE` override) are filtered by `requires_project` when
the project flag is false; hence when there are no plugin-registry entry
points, no command with `requires_project = true` appears in the final
registry outside a project.  (Entry-point commands bypass the filter, per
the design asymmetry.) -/
theorem module_commands_filtered_outside_project (settings : Settings) (env : Env)
    (cmds : List (String × Cmd)) (k : String) (c : Cmd)
    (hep : env.entryPoints = [])
    (hd : _get_commands_dict settings env false = .ok cmds)
    (hl : dlookup cmds k = some c) :
    c.requires_project = false := by
  simp only [_get_commands_dict, _get_commands_from_entry_points, hep, epGo] at hd
  have hbase : dupdate (_get_commands_from_module env.builtinCmds false)
      ([] : List (String × Cmd)) = _get_commands_from_module env.builtinCmds false := rfl
  by_cases hcm : settings.commands_module = ""
  · rw [if_pos hcm] at hd
    cases hd
    rw [hbase] at hl
    have := module_lookup_cond env.builtinCmds false k c hl
    simpa using this
  · rw [if_neg hcm] at hd
    cases hd
    rw [hbase] at hl
    rw [dlookup_dupdate _ _ _ (nodup_keys_module env.cmdsModuleCmds false)] at hl
    cases hmod : dlookup (_get_commands_from_module env.cmdsModuleCmds false) k with
    | some c2 =>
        rw [hmod] at hl
        simp only [optOr] at hl
        cases hl
        simpa using module_lookup_cond env.cmdsModuleCmds false k c hmod
    | none =>
        rw [hmod] at hl
        simp only [optOr] at hl
        simpa using module_lookup_cond env.builtinCmds false k c hl

/-- Witness for C4 (amended): a built-in command with
`requires_project = false` outside a project. -/
theorem module_commands_filtered_outside_project_witness :
    demoEnvBuiltin.entryPoints = [] ∧
    _get_commands_dict demoSettingsPlain demoEnvBuiltin false =
      .ok [("version", mkDemoCmd 4 false)] ∧
    dlookup [("version", mkDemoCmd 4 false)] "version" = some (mkDemoCmd 4 false) ∧
    (mkDemoCmd 4 false).requires_project = false :=
  ⟨rfl, rfl, rfl,
    module_commands_filtered_outside_project demoSettingsPlain demoEnvBuiltin
      [("version", mkDemoCmd 4 false)] "version" (mkDemoCmd 4 false) rfl rfl rfl⟩

/-- C5: when some entry point of the plugin registry loads to a non-class
object, discovery fails with the configuration error naming the first such
entry, `execute` terminates with that uncaught configuration error (not a
process exit), and that outcome is distinct from every Usage-Error-surface
exit — the entry is not silently skipped. -/
theorem invalid_entry_point_fatal_config_error (argv : List String)
    (settings : Settings) (env : Env) (bad : EntryPoint)
    (hfind : env.entryPoints.find? epIsNonCls = some bad) :
    _get_commands_dict settings env env.inproject =
      .error ("Invalid entry point " ++ bad.name) ∧
    execute argv settings env = .configError ("Invalid entry point " ++ bad.name) ∧
    (∀ code out err, Outcome.configError ("Invalid entry point " ++ bad.name) ≠
      Outcome.exited code out err) := by
  have herr := epGo_error_of_find env.entryPoints [] bad hfind
  have hdict : _get_commands_dict settings env env.inproject =
      .error ("Invalid entry point " ++ bad.name) := by
    simp only [_get_commands_dict, _get_commands_from_entry_points, herr]
  refine ⟨hdict, ?_, ?_⟩
  · simp only [execute, hdict]
  · intro code out err h
    exact Outcome.noConfusion h

/-- Witness for C5: a single malformed entry point named `badep`. -/
theorem invalid_entry_point_fatal_config_error_witness :
    demoEnvBadEP.entryPoints.find? epIsNonCls =
      some { name := "badep", obj := .nonCls } ∧
    execute ["prog", "crawl"] demoSettingsPlain demoEnvBadEP =
      .configError ("Invalid entry point badep") :=
  ⟨rfl,
    (invalid_entry_point_fatal_config_error ["prog", "crawl"] demoSettingsPlain
      demoEnvBadEP { name := "badep", obj := .nonCls } rfl).2.1⟩

instance : IsTotal (String × Cmd) (fun a b => a.1 ≤ b.1) :=
  ⟨fun a b => le_total a.1 b.1⟩

instance : IsTrans (String × Cmd) (fun a b => a.1 ≤ b.1) :=
  ⟨fun _ _ _ h1 h2 => le_trans h1 h2⟩

/-- C2: when a resolved command's `process_options` hook raises a
`UsageError` with a non-empty message, the pipeline terminates with exit
code 2 through `parser.error`; the same outcome results whatever the
command's `run` behaviour is (run is never invoked); and an uncaught fault
of the pipeline tail can only come from a non-`UsageError` exception of
`process_options` or `run` — a Usage Error never propagates as an
unhandled fault. -/
theorem usage_error_in_process_options_exits_two (argv : List String)
    (settings : Settings) (env : Env) (cmds : List (String × Cmd))
    (cmdname : String) (argv2 : List String) (cmd : Cmd) (opts : Opts)
    (args : List String) (e : UsageErr)
    (hd : _get_commands_dict settings env env.inproject = .ok cmds)
    (hpop : _pop_command_name argv = (some cmdname, argv2))
    (hne : cmdname ≠ "")
    (hlook : dlookup cmds cmdname = some cmd)
    (hparse : cmd.parse_known_args (argv2.drop 1) = (opts, args))
    (hpo : cmd.process_options args opts = .usageError e)
    (hmsg : e.msg ≠ "") :
    execute argv settings env =
      .exited 2 [] (parserErrorOut (mkParserInfo cmdname cmd) e.msg) ∧
    (∀ f, execCommand settings cmdname { cmd with run := f } (argv2.drop 1) =
      .exited 2 [] (parserErrorOut (mkParserInfo cmdname cmd) e.msg)) ∧
    (∀ (s' : Settings) (n' : String) (c' : Cmd) (r' : List String) (m' : String),
      execCommand s' n' c' r' = .fault m' →
      c'.process_options (c'.parse_known_args r').2 (c'.parse_known_args r').1 =
          .fault m' ∨
        c'.run (c'.parse_known_args r').2 (c'.parse_known_args r').1 = .fault m') := by
  have hf : pyFalsyName (some cmdname) = false := by
    simp [pyFalsyName, hne]
  refine ⟨?_, ?_, ?_⟩
  · simp only [execute, hd, hpop, hf, Bool.false_eq_true, if_false, Option.getD_some, hlook]
    exact execCommand_usage_error settings cmdname cmd (argv2.drop 1) opts args e
      hparse hpo hmsg
  · intro f
    exact execCommand_usage_error settings cmdname { cmd with run := f } (argv2.drop 1)
      opts args e hparse hpo hmsg
  · intro s' n' c' r' m' h
    rcases hpa : c'.parse_known_args r' with ⟨o, a⟩
    simp only [execCommand, hpa] at h
    cases hh : _run_print_help (mkParserInfo n' c') (c'.process_options a o) with
    | some o2 =>
        rw [hh] at h
        subst h
        exact Or.inl (run_print_help_fault _ _ _ hh)
    | none =>
        rw [hh] at h
        cases hh2 : _run_print_help (mkParserInfo n' c')
            (_run_command c' a o).result with
        | some o3 =>
            rw [hh2] at h
            have ho3 := withErr_fault _ _ _ h
            rw [ho3] at hh2
            exact Or.inr (run_command_result_fault c' a o m'
              (run_print_help_fault _ _ _ hh2))
        | none =>
            rw [hh2] at h
            exact Outcome.noConfusion h

/-- A command whose option validation always raises
`UsageError("bad arguments", print_help=True)`. -/
def demoUsageCmd : Cmd :=
  { id := 9, requires_project := false, default_settings := [],
    syntax_str := "", short_desc := "", helpText := "",
    parse_known_args := fun a => ({ profile := none }, a),
    process_options := fun _ _ => .usageError { msg := "bad arguments", print_help := true },
    run := fun _ _ => .ok 0 }

def demoEnvUsage : Env :=
  { inproject := false,
    builtinCmds := [{ modName := "scrapy.commands.crawl", inst := demoUsageCmd }],
    entryPoints := [], cmdsModuleCmds := [] }

/-- Witness for C2: the `crawl` command whose validation rejects its
options. -/
theorem usage_error_in_process_options_exits_two_witness :
    _get_commands_dict demoSettingsPlain demoEnvUsage demoEnvUsage.inproject =
      .ok [("crawl", demoUsageCmd)] ∧
    _pop_command_name ["prog", "crawl"] = (some ("crawl"), ["crawl"]) ∧
    demoUsageCmd.process_options [] { profile := none } =
      .usageError { msg := "bad arguments", print_help := true } ∧
    execute ["prog", "crawl"] demoSettingsPlain demoEnvUsage =
      .exited 2 [] (parserErrorOut (mkParserInfo "crawl" demoUsageCmd) "bad arguments") := by
  refine ⟨rfl, by decide, rfl, ?_⟩
  exact (usage_error_in_process_options_exits_two ["prog", "crawl"] demoSettingsPlain
    demoEnvUsage [("crawl", demoUsageCmd)] "crawl" ["crawl"] demoUsageCmd
    { profile := none } [] { msg := "bad arguments", print_help := true }
    rfl (by decide) (by decide) rfl rfl rfl (by decide)).1

/-- C6: when the argument vector holds no command token (every element
after the program name starts with `'-'`), the pipeline exits with code 0
printing the command listing: the listing opens with the header
distinguishing in-project from no-project, shows one line per registered
command with the names in sorted order and none missing, and outside a
project carries the note that more commands exist inside one. -/
theorem no_command_token_prints_listing_exit_zero (argv : List String)
    (settings : Settings) (env : Env) (cmds : List (String × Cmd))
    (hd : _get_commands_dict settings env env.inproject = .ok cmds)
    (hAll : ∀ a ∈ argv.drop 1, startswith_dash a = true) :
    execute argv settings env =
      .exited 0 (commandListing settings env.inproject cmds) [] ∧
    ((sortedItems cmds).map Prod.fst).Sorted (· ≤ ·) ∧
    (∀ k, k ∈ cmds.map Prod.fst ↔ k ∈ (sortedItems cmds).map Prod.fst) ∧
    (∀ p ∈ sortedItems cmds,
      cmdItemLine p.1 p.2 ∈ commandListing settings env.inproject cmds) ∧
    (commandListing settings env.inproject cmds).head? =
      some (_print_header settings env.inproject) ∧
    (env.inproject = false →
      "  [ more ]      More commands available when run from project directory"
        ∈ commandListing settings env.inproject cmds) := by
  have hpop : _pop_command_name argv = (none, argv) :=
    popGo_all_flags argv (argv.drop 1) 0 hAll
  have hperm : (sortedItems cmds).Perm cmds :=
    List.perm_insertionSort (fun a b : String × Cmd => a.1 ≤ b.1) cmds
  refine ⟨?_, ?_, ?_, ?_, ?_, ?_⟩
  · simp only [execute, hd, hpop, pyFalsyName, if_true, _print_commands]
  · have hsorted : List.Pairwise (fun a b : String × Cmd => a.1 ≤ b.1) (sortedItems cmds) :=
      List.sorted_insertionSort (fun a b : String × Cmd => a.1 ≤ b.1) cmds
    exact List.Pairwise.map Prod.fst (fun a b h => h) hsorted
  · intro k
    exact ((hperm.map Prod.fst).mem_iff).symm
  · intro p hp
    have hm : cmdItemLine p.1 p.2 ∈
        (sortedItems cmds).map (fun q => cmdItemLine q.1 q.2) :=
      List.mem_map_of_mem _ hp
    simp only [commandListing, List.mem_cons, List.mem_append]
    exact Or.inr (Or.inr (Or.inr (Or.inr (Or.inl (Or.inl hm)))))
  · rfl
  · intro h
    simp [commandListing, h]

/-- Witness for C6 at argv `["prog"]` outside a project with one registered
command. -/
theorem no_command_token_prints_listing_exit_zero_witness :
    _get_commands_dict demoSettingsPlain demoEnvBuiltin demoEnvBuiltin.inproject =
      .ok [("version", mkDemoCmd 4 false)] ∧
    (∀ a ∈ (["prog"] : List String).drop 1, startswith_dash a = true) ∧
    execute ["prog"] demoSettingsPlain demoEnvBuiltin =
      .exited 0
        (commandListing demoSettingsPlain demoEnvBuiltin.inproject
          [("version", mkDemoCmd 4 false)]) [] := by
  have hAll : ∀ a ∈ (["prog"] : List String).drop 1, startswith_dash a = true := by
    simp
  exact ⟨rfl, hAll,
    (no_command_token_prints_listing_exit_zero ["prog"] demoSettingsPlain demoEnvBuiltin
      [("version", mkDemoCmd 4 false)] rfl hAll).1⟩

/-- C7: when the resolved command token is non-empty but not registered,
the pipeline prints the header followed by `Unknown command: <name>` (and
the hint line) and exits with code 2 — an outcome distinct from every
no-command-token outcome, which exits with code 0. -/
theorem unknown_command_exits_two (argv : List String) (settings : Settings)
    (env : Env) (cmds : List (String × Cmd)) (cmdname : String) (argv2 : List String)
    (hd : _get_commands_dict settings env env.inproject = .ok cmds)
    (hpop : _pop_command_name argv = (some cmdname, argv2))
    (hne : cmdname ≠ "")
    (hmiss : dlookup cmds cmdname = none) :
    execute argv settings env =
      .exited 2 (_print_unknown_command settings cmdname env.inproject) [] ∧
    _print_unknown_command settings cmdname env.inproject =
      [_print_header settings env.inproject,
       "Unknown command: " ++ cmdname ++ "\n",
       "Use \"scrapy\" to see available commands"] ∧
    (∀ L, Outcome.exited 2 (_print_unknown_command settings cmdname env.inproject) [] ≠
      Outcome.exited 0 L []) := by
  have hf : pyFalsyName (some cmdname) = false := by
    simp [pyFalsyName, hne]
  refine ⟨?_, rfl, ?_⟩
  · simp only [execute, hd, hpop, hf, Bool.false_eq_true, if_false, Option.getD_some, hmiss]
  · intro L h
    have h2 : (2 : Int) = 0 := by injection h
    exact absurd h2 (by decide)

def demoEnvEmpty : Env :=
  { inproject := false, builtinCmds := [], entryPoints := [], cmdsModuleCmds := [] }

/-- Witness for C7 at argv `["prog", "bogus"]` with an empty registry. -/
theorem unknown_command_exits_two_witness :
    _get_commands_dict demoSettingsPlain demoEnvEmpty demoEnvEmpty.inproject =
      .ok [] ∧
    _pop_command_name ["prog", "bogus"] = (some ("bogus"), ["bogus"]) ∧
    execute ["prog", "bogus"] demoSettingsPlain demoEnvEmpty =
      .exited 2 (_print_unknown_command demoSettingsPlain "bogus" demoEnvEmpty.inproject) [] := by
  refine ⟨rfl, by decide, ?_⟩
  exact (unknown_command_exits_two ["prog", "bogus"] demoSettingsPlain demoEnvEmpty
    [] "bogus" ["bogus"] rfl (by decide) (by decide) rfl).1

/-- C9: when the first non-flag token after the program name is the empty
string, resolution deletes one element from the vector and returns `""`,
and the dispatcher treats the invocation as "no command requested": it
prints the full command listing and exits with code 0 rather than
reporting an unknown command. -/
theorem empty_command_token_prints_listing (argv : List String)
    (settings : Settings) (env : Env) (cmds : List (String × Cmd)) (k : Nat)
    (hd : _get_commands_dict settings env env.inproject = .ok cmds)
    (hk : 1 ≤ k) (hget : argv[k]? = some "")
    (hflags : ∀ j, 1 ≤ j → j < k → ∃ s, argv[j]? = some s ∧ startswith_dash s = true) :
    _pop_command_name argv = (some "", argv.eraseIdx (k - 1)) ∧
    (argv.eraseIdx (k - 1)).length + 1 = argv.length ∧
    execute argv settings env =
      .exited 0 (commandListing settings env.inproject cmds) [] := by
  have hpop := pop_spec argv k "" hk hget (by decide) hflags
  have hklen : k < argv.length := by
    by_contra hcon
    push_neg at hcon
    rw [List.getElem?_eq_none (by omega)] at hget
    exact Option.noConfusion hget
  refine ⟨hpop, ?_, ?_⟩
  · rw [List.length_eraseIdx_of_lt (by omega : k - 1 < argv.length)]
    omega
  · simp [execute, hd, hpop, pyFalsyName, _print_commands]

/-- Witness for C9 at argv `["prog", ""]`, `k = 1`. -/
theorem empty_command_token_prints_listing_witness :
    _get_commands_dict demoSettingsPlain demoEnvBuiltin demoEnvBuiltin.inproject =
      .ok [("version", mkDemoCmd 4 false)] ∧
    ((["prog", ""] : List String)[1]? = some "") ∧
    execute ["prog", ""] demoSettingsPlain demoEnvBuiltin =
      .exited 0
        (commandListing demoSettingsPlain demoEnvBuiltin.inproject
          [("version", mkDemoCmd 4 false)]) [] := by
  have hflags : ∀ j, 1 ≤ j → j < 1 →
      ∃ s, (["prog", ""] : List String)[j]? = some s ∧ startswith_dash s = true := by
    intro j h1 h2
    omega
  exact ⟨rfl, by decide,
    (empty_command_token_prints_listing ["prog", ""] demoSettingsPlain demoEnvBuiltin
      [("version", mkDemoCmd 4 false)] 1 rfl (by decide) (by decide) hflags).2.2⟩

/-- C8: the profiling wrapper is observationally equivalent to running the
command directly with respect to the call result (normal return or any
raised exception) and the command's exit code; and after a normal return
with profiling enabled, the statistics are dumped to the requested path and
the diagnostic line naming that path was written to the error stream. -/
theorem profiled_run_equiv_direct (cmd : Cmd) (args : List String) (opts : Opts) :
    ((_run_command cmd args opts).result = (runDirectly cmd args opts).result ∧
     (_run_command cmd args opts).exitcode = (runDirectly cmd args opts).exitcode) ∧
    (profileTruthy opts = true → ∀ ec, cmd.run args opts = .ok ec →
      (_run_command cmd args opts).dumped = opts.profile ∧
      profileDiagLine opts ∈ (_run_command cmd args opts).stderr) := by
  constructor
  · unfold _run_command _run_command_profiled runDirectly
    by_cases hp : profileTruthy opts
    · cases hrun : cmd.run args opts <;> simp [hp, hrun]
    · cases hrun : cmd.run args opts <;> simp [hp, hrun]
  · intro hp ec hrun
    unfold _run_command _run_command_profiled
    simp [hp, hrun]

/-- A command whose `run` returns normally with exit code 3. -/
def demoRunCmd : Cmd :=
  { id := 11, requires_project := false, default_settings := [],
    syntax_str := "", short_desc := "", helpText := "",
    parse_known_args := fun a => ({ profile := none }, a),
    process_options := fun _ _ => .ok,
    run := fun _ _ => .ok 3 }

def demoProfOpts : Opts := { profile := some ("stats.out") }

/-- Witness for C8: profiling enabled with a successful run. -/
theorem profiled_run_equiv_direct_witness :
    profileTruthy demoProfOpts = true ∧
    demoRunCmd.run [] demoProfOpts = .ok 3 ∧
    (_run_command demoRunCmd [] demoProfOpts).result =
      (runDirectly demoRunCmd [] demoProfOpts).result ∧
    (_run_command demoRunCmd [] demoProfOpts).exitcode =
      (runDirectly demoRunCmd [] demoProfOpts).exitcode ∧
    (_run_command demoRunCmd [] demoProfOpts).dumped = demoProfOpts.profile ∧
    profileDiagLine demoProfOpts ∈ (_run_command demoRunCmd [] demoProfOpts).stderr := by
  have h := profiled_run_equiv_direct demoRunCmd [] demoProfOpts
  have h2 := h.2 (by decide) 3 rfl
  exact ⟨by decide, rfl, h.1.1, h.1.2, h2.1, h2.2⟩

end Scrapy
